import Mathlib

/-!
Verification of the pdfcraft office-to-PDF processors
(`src/lib/pdf/processors/pptx-to-pdf.ts`, containing both the
`PPTXToPDFProcessor` and the `WordToPDFProcessor` modules).

The two processors are structurally identical and differ only in their
extension whitelist, their extension-stripping suffixes and their user-facing
messages; we embed them as one function `processModel` parameterised by a
`Family` record, instantiated at `pptxFamily` and `wordFamily`.

The processors' asynchronous effects (engine initialization outcome, the
progress reports the engine emits during initialization, the cancellation flag
as sampled at each of the two checkpoints, the outcome of the
conversion-vs-timeout race, and the number of 800 ms ticker ticks that fire
while the race is pending) are captured in a `ProcEnv` record; `processModel`
is the resulting pure function from input and environment to the produced
output together with the ordered list of progress callbacks delivered and the
final ticker-timer state.

JavaScript numbers are modelled as exact rationals (ℚ); `toFixed(1)` is
modelled as round-half-up to one decimal place.
-/

namespace PDFCraft

/-- Maximum file size: `50 * 1024 * 1024` bytes, from the source constant
`MAX_FILE_SIZE`. -/
def MAX_FILE_SIZE : Nat := 50 * 1024 * 1024

/-- Conversion timeout: `5 * 60 * 1000` ms, from the source constant
`CONVERT_TIMEOUT_MS`. -/
def CONVERT_TIMEOUT_MS : Nat := 5 * 60 * 1000

/-- One file record of `ProcessInput`: name, size in bytes and declared media
type. The binary content is opaque to this code and is not modelled. -/
structure FileRec where
  name : String
  size : Nat
  type : String
deriving DecidableEq, Repr

/-- Modelled from the spec: `ProcessInput` from `@/types/pdf` (not under
`src/`) — "an ordered sequence of file records … plus an options record
(currently empty/reserved)". -/
structure ProcessInput where
  files : List FileRec
deriving DecidableEq, Repr

/-- Modelled from the spec: the `PDFErrorCode` taxonomy from `@/types/pdf`
(not under `src/`), §7 of the spec. -/
inductive PDFErrorCode where
  | INVALID_OPTIONS
  | FILE_TYPE_INVALID
  | PROCESSING_CANCELLED
  | PROCESSING_FAILED
deriving DecidableEq, Repr

/-- Modelled from the spec: `ProcessOutput` from `@/types/pdf` (not under
`src/`) — "a tagged variant — success (binary PDF payload, output filename,
metadata map) or failure (error kind, human message, optional diagnostic
detail)". The binary payload is modelled as an opaque numeric id. -/
inductive ProcessOutput where
  | success (blob : Nat) (filename : String) (metadata : List (String × String))
  | failure (code : PDFErrorCode) (message : String) (detail : Option String)
deriving DecidableEq, Repr

/-- Whether a `ProcessOutput` is a success. -/
def ProcessOutput.isSuccess : ProcessOutput → Bool
  | .success _ _ _ => true
  | .failure _ _ _ => false

/-- The error code of a failure output, if any. -/
def ProcessOutput.errorCode : ProcessOutput → Option PDFErrorCode
  | .success _ _ _ => none
  | .failure c _ _ => some c

/-- ASCII lowercasing of one character, as JavaScript `toLowerCase` acts on
the A–Z range. (The extensions compared against are all ASCII, so non-ASCII
case mappings cannot affect any comparison made by this code.) -/
def lowerChar : Char → Char
  | 'A' => 'a' | 'B' => 'b' | 'C' => 'c' | 'D' => 'd' | 'E' => 'e'
  | 'F' => 'f' | 'G' => 'g' | 'H' => 'h' | 'I' => 'i' | 'J' => 'j'
  | 'K' => 'k' | 'L' => 'l' | 'M' => 'm' | 'N' => 'n' | 'O' => 'o'
  | 'P' => 'p' | 'Q' => 'q' | 'R' => 'r' | 'S' => 's' | 'T' => 't'
  | 'U' => 'u' | 'V' => 'v' | 'W' => 'w' | 'X' => 'x' | 'Y' => 'y'
  | 'Z' => 'z' | c => c

/-- Lowercase a character list. -/
def lowerList (cs : List Char) : List Char := cs.map lowerChar

/-- JavaScript `str.split('.')` on the character list: always returns a
non-empty list of (possibly empty) segments. -/
def splitDots : List Char → List (List Char)
  | [] => [[]]
  | c :: rest =>
    let r := splitDots rest
    if c = '.' then [] :: r
    else
      match r with
      | s :: ss => (c :: s) :: ss
      | [] => [[c]]

/-- Whether `cs` ends with `suf` (character-wise). -/
def listEndsWith (cs suf : List Char) : Bool :=
  cs.drop (cs.length - suf.length) == suf

/-- `file.name.split('.').pop()?.toLowerCase() || ''` from the source:
the lowercased segment after the last dot (the whole lowercased name when
there is no dot; `''` stays `''` under `|| ''`). -/
def extOf (name : String) : String :=
  ⟨lowerList ((splitDots name.data).getLastD [])⟩

/-- `name.replace(/\.(pptx?|odp)$/i, '')`-style stripping from the source:
if the name case-insensitively ends with one of the given dotted suffixes,
drop that many characters from the end, otherwise leave the name unchanged.
The regex is anchored at the end and requires the literal dot. -/
def stripSrcExt (suffixes : List String) (name : String) : String :=
  match suffixes.find? (fun s => listEndsWith (lowerList name.data) s.data) with
  | some s => ⟨name.data.take (name.data.length - s.data.length)⟩
  | none => name

/-- Per-family configuration: everything that differs between the
`PPTXToPDFProcessor` and the `WordToPDFProcessor` sources. -/
structure Family where
  validExts : List String
  stripSuffixes : List String
  wrongCountMsg : String
  badTypeMsg : String
  convertingMsg : String
  failedMsg : String
deriving Repr

/-- The `PPTXToPDFProcessor` instantiation (source lines 81–152). -/
def pptxFamily : Family where
  validExts := ["pptx", "ppt", "odp"]
  stripSuffixes := [".pptx", ".ppt", ".odp"]
  wrongCountMsg := "Please provide exactly one PowerPoint presentation."
  badTypeMsg := "Invalid file type. Please upload .pptx, .ppt, or .odp."
  convertingMsg := "Converting PowerPoint to PDF..."
  failedMsg := "Failed to convert PowerPoint to PDF."

/-- The `WordToPDFProcessor` instantiation (source lines 248–319). -/
def wordFamily : Family where
  validExts := ["docx", "doc", "odt", "rtf"]
  stripSuffixes := [".docx", ".doc", ".odt", ".rtf"]
  wrongCountMsg := "Please provide exactly one Word document."
  badTypeMsg := "Invalid file type. Please upload .docx, .doc, .odt, or .rtf."
  convertingMsg := "Converting Word document to PDF..."
  failedMsg := "Failed to convert Word document to PDF."

/-- The shared "loading engine" message (source line 111). -/
def loadingMsg : String :=
  "Loading conversion engine (first time may take 1-2 minutes)..."

/-- The timeout rejection message built at source lines 128–130:
`CONVERT_TIMEOUT_MS / 60000 = 5`. -/
def timeoutMessage : String :=
  "Conversion timed out after " ++ toString (CONVERT_TIMEOUT_MS / 60000) ++
    " minutes. The file may be too complex."

/-- `(file.size / 1024 / 1024).toFixed(1)` from the source size guard,
modelled exactly over ℚ: the size in MB rounded half-up to one decimal,
rendered as `<integer part>.<tenths digit>`.
`(size*10 + 524288) / 1048576` is the round-half-up of `size*10 / 2^20`. -/
def sizeMBString (size : Nat) : String :=
  let t := (size * 10 + 524288) / 1048576
  toString (t / 10) ++ "." ++ toString (t % 10)

/-- The oversize error message from the source size guard (lines 102–107);
`MAX_FILE_SIZE / 1024 / 1024 = 50`. Built with this exact association so the
two MB renderings are visibly infix. -/
def oversizeMsg (size : Nat) : String :=
  "File is too large (" ++
    (sizeMBString size ++
      (" MB). Maximum supported size is " ++
        (toString (MAX_FILE_SIZE / 1024 / 1024) ++ " MB.")))

/-- The oversize diagnostic detail from the source size guard. -/
def oversizeDetail (size : Nat) : String :=
  "File size: " ++ toString size ++ " bytes, limit: " ++
    toString MAX_FILE_SIZE ++ " bytes"

/-- The progress-relay applied to each engine initialization report
(source line 114): `Math.min(percent * 0.8, 80)`. -/
def relay (percent : ℚ) : ℚ := min (percent * (4 / 5)) 80

/-- The relayed initialization-progress events delivered during
`getConverter`, from the engine's raw `{percent, message}` reports
(source lines 113–115). -/
def relayMap (l : List (ℚ × String)) : List (ℚ × String) :=
  l.map (fun pm => (relay pm.1, pm.2))

/-- Outcome of `Promise.race([convertToPdf(file), timeoutPromise])`. -/
inductive ConvertOutcome where
  | ok (blob : Nat)
  | engineError (msg : String)
  | timeout
deriving DecidableEq, Repr

/-- The asynchronous environment of one `process` call: what the engine and
the caller do at each suspension point.
`initReports` are the `{percent, message}` pairs the engine emits during
initialization (empty when the singleton converter is already ready);
`initResult` is whether `getConverter` resolves or rejects;
`cancelledAt1`/`cancelledAt2` are the cancellation flag as sampled by
`checkCancelled()` at the checkpoint before conversion and at the one after
the race settles; `convertResult` is which arm of the race settles first and
how; `tickerTicks` is how many 800 ms ticker intervals fire while the race is
pending. -/
structure ProcEnv where
  initReports : List (ℚ × String)
  initResult : Except String Unit
  cancelledAt1 : Bool
  cancelledAt2 : Bool
  convertResult : ConvertOutcome
  tickerTicks : Nat
deriving Repr

/-- The synthetic-progress ticker (source lines 50–58), run for `n` ticks from
current progress `p`: each tick leaves progress alone when it is already
`≥ 98`, and otherwise advances it by 1 and reports it with the fixed message.
Returns the final progress and the list of reports delivered. -/
def runTicks (msg : String) : Nat → ℚ → ℚ × List (ℚ × String)
  | 0, p => (p, [])
  | n + 1, p =>
    if p ≥ 98 then runTicks msg n p
    else
      let out := runTicks msg n (p + 1)
      (out.1, (p + 1, msg) :: out.2)

/-- The result of one `process` call: the returned `ProcessOutput`, the
ordered list of `(percent, message)` progress callbacks delivered to the
caller, whether the ticker timer is still running after the call returns, and
whether `convertToPdf` was invoked at all. -/
structure ProcResult where
  output : ProcessOutput
  trace : List (ℚ × String)
  timerAfter : Bool
  convertInvoked : Bool
deriving Repr

/-- Shallow embedding of `PPTXToPDFProcessor.process` /
`WordToPDFProcessor.process` (source lines 72–153 and 239–320), parameterised
by the family configuration.

The `BasePDFProcessor` helpers are not under `src/` and are modelled from the
spec: `updateProgress(p, msg)` sets the progress value and delivers `(p, msg)`
to the registered callback (spec §3 ProgressState); `createErrorOutput` /
`createSuccessOutput` build the tagged `ProcessOutput` variants (spec §3);
`checkCancelled()` samples the cancellation flag (spec §5); `reset()` clears
progress and stops the ticker (spec §4.2 step 1).

Control flow mirrors the source exactly: file-count check, extension check,
size check, `updateProgress(5, …)`, `getConverter` with the `relay`ed
progress, first cancellation checkpoint, `updateProgress(85, …)`, ticker
start, the race, `stopConversionProgress`, second cancellation checkpoint,
`updateProgress(100, …)`, filename derivation — with any rejection from the
`try` block caught and mapped to `PROCESSING_FAILED` after stopping the
ticker. -/
def processModel (fam : Family) (input : ProcessInput) (env : ProcEnv) :
    ProcResult :=
  match input.files with
  | [file] =>
    if extOf file.name ∉ fam.validExts then
      { output := .failure .FILE_TYPE_INVALID fam.badTypeMsg
          (some ("Received: " ++ (if file.type = "" then file.name else file.type)))
        trace := [], timerAfter := false, convertInvoked := false }
    else if file.size > MAX_FILE_SIZE then
      { output := .failure .INVALID_OPTIONS (oversizeMsg file.size)
          (some (oversizeDetail file.size))
        trace := [], timerAfter := false, convertInvoked := false }
    else
      let trace5 := ((5 : ℚ), loadingMsg) :: relayMap env.initReports
      match env.initResult with
      | .error msg =>
        { output := .failure .PROCESSING_FAILED fam.failedMsg (some msg)
          trace := trace5, timerAfter := false, convertInvoked := false }
      | .ok _ =>
        if env.cancelledAt1 then
          { output := .failure .PROCESSING_CANCELLED "Processing was cancelled." none
            trace := trace5, timerAfter := false, convertInvoked := false }
        else
          let ticks := (runTicks fam.convertingMsg env.tickerTicks 85).2
          let trace85 := trace5 ++ ((85 : ℚ), fam.convertingMsg) :: ticks
          match env.convertResult with
          | .timeout =>
            { output := .failure .PROCESSING_FAILED fam.failedMsg
                (some timeoutMessage)
              trace := trace85, timerAfter := false, convertInvoked := true }
          | .engineError msg =>
            { output := .failure .PROCESSING_FAILED fam.failedMsg (some msg)
              trace := trace85, timerAfter := false, convertInvoked := true }
          | .ok blob =>
            if env.cancelledAt2 then
              { output := .failure .PROCESSING_CANCELLED "Processing was cancelled." none
                trace := trace85, timerAfter := false, convertInvoked := true }
            else
              { output := .success blob
                  (stripSrcExt fam.stripSuffixes file.name ++ ".pdf")
                  [("format", "pdf")]
                trace := trace85 ++ [((100 : ℚ), "Conversion complete!")]
                timerAfter := false, convertInvoked := true }
  | fs =>
    { output := .failure .INVALID_OPTIONS fam.wrongCountMsg
        (some ("Received " ++ toString fs.length ++ " file(s)."))
      trace := [], timerAfter := false, convertInvoked := false }

/-- The eventual settlement of a stored promise: JavaScript promises latch, so
a stored `converterPromise` is either (eventually) resolved or rejected with a
fixed error message, and every `await` of it observes that same settlement. -/
inductive PromiseState where
  | resolved
  | rejected (msg : String)
deriving DecidableEq, Repr

/-- Modelled from the spec: the engine handle returned by
`getLibreOfficeConverter()` (`@/lib/libreoffice`, not under `src/`) — spec §6:
`initialize(progressCallback)` resolves when ready, `isReady()` is a
synchronous readiness probe. `id` distinguishes distinct constructions. -/
structure Handle where
  id : Nat
  ready : Bool
deriving DecidableEq, Repr

/-- The module-level mutable state of the converter provider (source lines
24–25): `converterPromise` and `converterInstance`. -/
structure ConverterGlobals where
  converterPromise : Option PromiseState
  converterInstance : Option Handle
deriving DecidableEq, Repr

/-- Outcome of one (hypothetical) fresh engine initialization attempt. -/
inductive InitOutcome where
  | ok
  | fail (msg : String)
deriving DecidableEq, Repr

/-- Result of one `getConverter` call: the value returned (or the error
thrown), the updated module globals, and whether this call started a fresh
initialization. `getConverter` returns the raw `converterInstance` variable,
hence `Option Handle`. -/
structure GetConvResult where
  result : Except String (Option Handle)
  globals : ConverterGlobals
  startedInit : Bool
deriving Repr

/-- Shallow embedding of `getConverter` (source lines 27–45).
`freshId` identifies the handle a fresh `getLibreOfficeConverter()` call would
construct; `init` is how that fresh initialization would settle.

- If `converterInstance?.isReady()`, return it (no state change).
- Else if `converterPromise` is set, `await` it: observe its settlement
  (rethrowing its rejection) and return `converterInstance`; no state change,
  no new initialization.
- Else start initialization: store the new promise, assign
  `converterInstance` to the fresh handle, and run `initialize`. On success
  the promise resolves and the ready handle is returned; on failure the
  `await converterPromise` rethrows — and the rejected promise is left stored
  in `converterPromise`, the handle non-ready. -/
def getConverterModel (g : ConverterGlobals) (freshId : Nat)
    (init : InitOutcome) : GetConvResult :=
  if (match g.converterInstance with
      | some h => h.ready
      | none => false) then
    ⟨.ok g.converterInstance, g, false⟩
  else
    match g.converterPromise with
    | some .resolved => ⟨.ok g.converterInstance, g, false⟩
    | some (.rejected m) => ⟨.error m, g, false⟩
    | none =>
      match init with
      | .ok =>
        let h : Handle := ⟨freshId, true⟩
        ⟨.ok (some h), ⟨some .resolved, some h⟩, true⟩
      | .fail m =>
        let h : Handle := ⟨freshId, false⟩
        ⟨.error m, ⟨some (.rejected m), some h⟩, true⟩

/-! ### Trace predicates and helper lemmas -/

/-- `chainLe prev evs` : every progress value in `evs` is ≥ its predecessor,
starting the comparison from `prev`. -/
def chainLe : ℚ → List (ℚ × String) → Bool
  | _, [] => true
  | prev, e :: rest => decide (prev ≤ e.1) && chainLe e.1 rest

/-- A progress trace is monotonically non-decreasing: each delivered value is
≥ the previous one. -/
def traceMonotone : List (ℚ × String) → Bool
  | [] => true
  | e :: rest => chainLe e.1 rest

/-- The progress value of the last event of a trace (default `d` when the
trace is empty). -/
def lastVal (d : ℚ) : List (ℚ × String) → ℚ
  | [] => d
  | e :: rest => lastVal e.1 rest

/-- `sub` occurs contiguously inside `full`. -/
def strContains (full sub : String) : Prop :=
  ∃ a b : String, full = a ++ (sub ++ b)

theorem strAppend_assoc (a b c : String) : a ++ b ++ c = a ++ (b ++ c) := by
  rcases a with ⟨la⟩
  rcases b with ⟨lb⟩
  rcases c with ⟨lc⟩
  show String.mk (la ++ lb ++ lc) = String.mk (la ++ (lb ++ lc))
  rw [List.append_assoc]

theorem chainLe_append (a : ℚ) (xs ys : List (ℚ × String)) :
    chainLe a (xs ++ ys) = (chainLe a xs && chainLe (lastVal a xs) ys) := by
  induction xs generalizing a with
  | nil => simp [chainLe, lastVal]
  | cons x xs ih =>
    simp only [List.cons_append, chainLe, lastVal, List.append_eq, ih x.1,
      Bool.and_assoc]

theorem lastVal_le (d : ℚ) (c : ℚ) (l : List (ℚ × String))
    (hd : d ≤ c) (hl : ∀ e ∈ l, e.1 ≤ c) : lastVal d l ≤ c := by
  induction l generalizing d with
  | nil => exact hd
  | cons e rest ih =>
    exact ih e.1 (hl e (List.mem_cons_self e rest))
      (fun x hx => hl x (List.mem_cons_of_mem e hx))

theorem relay_le_80 (p : ℚ) : relay p ≤ 80 := min_le_right _ _

theorem relay_mono {p q : ℚ} (h : p ≤ q) : relay p ≤ relay q :=
  min_le_min (mul_le_mul_of_nonneg_right h (by norm_num)) le_rfl

theorem five_le_relay {p : ℚ} (h : 25 / 4 ≤ p) : 5 ≤ relay p := by
  refine le_min ?_ (by norm_num)
  nlinarith

theorem chainLe_relayMap_of_chainLe (x : ℚ × String) (xs : List (ℚ × String))
    (h : chainLe x.1 xs = true) :
    chainLe (relay x.1) (relayMap xs) = true := by
  induction xs generalizing x with
  | nil => rfl
  | cons y ys ih =>
    simp only [chainLe, Bool.and_eq_true, decide_eq_true_eq] at h
    simp only [relayMap, List.map_cons, chainLe, Bool.and_eq_true,
      decide_eq_true_eq]
    exact ⟨relay_mono h.1, ih y h.2⟩

theorem relayMap_values_le (l : List (ℚ × String)) :
    ∀ e ∈ relayMap l, e.1 ≤ 80 := by
  intro e he
  simp only [relayMap, List.mem_map] at he
  obtain ⟨pm, _, rfl⟩ := he
  exact relay_le_80 pm.1

theorem chainLe_relayMap (l : List (ℚ × String))
    (hch : traceMonotone l = true)
    (hlo : ∀ pm ∈ l, 25 / 4 ≤ pm.1) :
    chainLe 5 (relayMap l) = true := by
  cases l with
  | nil => rfl
  | cons x xs =>
    simp only [relayMap, List.map_cons, chainLe, Bool.and_eq_true,
      decide_eq_true_eq]
    refine ⟨five_le_relay (hlo x (List.mem_cons_self x xs)), ?_⟩
    exact chainLe_relayMap_of_chainLe x xs hch

theorem runTicks_chain (msg : String) :
    ∀ (n j : Nat), j ≤ 13 →
      chainLe ((85 : ℚ) + j) (runTicks msg n ((85 : ℚ) + j)).2 = true ∧
      lastVal ((85 : ℚ) + j) (runTicks msg n ((85 : ℚ) + j)).2 ≤ 98 := by
  intro n
  induction n with
  | zero =>
    intro j hj
    refine ⟨rfl, ?_⟩
    simp only [runTicks, lastVal]
    have : (j : ℚ) ≤ 13 := by exact_mod_cast hj
    linarith
  | succ n ih =>
    intro j hj
    by_cases h98 : ((85 : ℚ) + j) ≥ 98
    · simpa only [runTicks, if_pos h98] using ih j hj
    · have hj13 : j < 13 := by
        by_contra hc
        push_neg at hc
        have : (13 : ℚ) ≤ (j : ℚ) := by exact_mod_cast hc
        exact h98 (by linarith)
      have hstep : (85 : ℚ) + j + 1 = (85 : ℚ) + (j + 1 : Nat) := by push_cast; ring
      have hrec := ih (j + 1) hj13
      rw [← hstep] at hrec
      simp only [runTicks, if_neg h98, chainLe, lastVal, Bool.and_eq_true,
        decide_eq_true_eq]
      exact ⟨⟨by linarith, hrec.1⟩, hrec.2⟩

theorem lastVal_append (d : ℚ) (xs ys : List (ℚ × String)) :
    lastVal d (xs ++ ys) = lastVal (lastVal d xs) ys := by
  induction xs generalizing d with
  | nil => rfl
  | cons x xs ih => simp only [List.cons_append, List.append_eq, lastVal, ih]

theorem lastVal_append_single (d : ℚ) (xs : List (ℚ × String)) (e : ℚ × String) :
    lastVal d (xs ++ [e]) = e.1 := by
  rw [lastVal_append]; rfl

/-- Inversion of the success path of `processModel`: a successful call comes
from exactly one file with a whitelisted extension and an in-bound size, a
resolving initialization, both cancellation samples `false` and a conversion
that settles with a blob — and the result record then has the stated shape. -/
theorem processModel_success_inv (fam : Family) (input : ProcessInput)
    (env : ProcEnv)
    (h : (processModel fam input env).output.isSuccess = true) :
    ∃ file blob,
      input.files = [file] ∧
      extOf file.name ∈ fam.validExts ∧
      file.size ≤ MAX_FILE_SIZE ∧
      env.cancelledAt1 = false ∧
      env.convertResult = ConvertOutcome.ok blob ∧
      env.cancelledAt2 = false ∧
      (processModel fam input env).output =
        .success blob (stripSrcExt fam.stripSuffixes file.name ++ ".pdf")
          [("format", "pdf")] ∧
      (processModel fam input env).trace =
        (((5 : ℚ), loadingMsg) :: relayMap env.initReports ++
            ((85 : ℚ), fam.convertingMsg) ::
              (runTicks fam.convertingMsg env.tickerTicks 85).2) ++
          [((100 : ℚ), "Conversion complete!")] := by
  obtain ⟨files⟩ := input
  match files with
  | [] => simp [processModel, ProcessOutput.isSuccess] at h
  | f1 :: f2 :: fs => simp [processModel, ProcessOutput.isSuccess] at h
  | [file] =>
    by_cases hext : extOf file.name ∈ fam.validExts
    · by_cases hsize : file.size > MAX_FILE_SIZE
      · simp [processModel, hext, hsize, ProcessOutput.isSuccess] at h
      · rcases hinit : env.initResult with msg | u
        · simp [processModel, hext, hsize, hinit, ProcessOutput.isSuccess] at h
        · rcases hc1 : env.cancelledAt1
          · rcases hcv : env.convertResult with blob | msg | _
            · rcases hc2 : env.cancelledAt2
              · refine ⟨file, blob, rfl, hext, by omega, rfl, rfl, rfl, ?_, ?_⟩ <;>
                  simp [processModel, hext, hsize, hinit, hc1, hcv, hc2]
              · simp [processModel, hext, hsize, hinit, hc1, hcv, hc2,
                  ProcessOutput.isSuccess] at h
            · simp [processModel, hext, hsize, hinit, hc1, hcv,
                ProcessOutput.isSuccess] at h
            · simp [processModel, hext, hsize, hinit, hc1, hcv,
                ProcessOutput.isSuccess] at h
          · simp [processModel, hext, hsize, hinit, hc1,
              ProcessOutput.isSuccess] at h
    · simp [processModel, hext, ProcessOutput.isSuccess] at h

/-! ### Claim C1 -/

/-- A fully successful environment in which the engine's single
initialization report carries percent 4, so the value relayed after the
initial 5% report is `min(4*0.8, 80) = 3.2 < 5`. -/
def c1Env : ProcEnv :=
  { initReports := [(4, "Initializing engine")]
    initResult := .ok ()
    cancelledAt1 := false
    cancelledAt2 := false
    convertResult := .ok 7
    tickerTicks := 2 }

/-- Claim C1 fails as stated: this call succeeds, yet the delivered progress
sequence is `5, 3.2, 85, 86, 87, 100`, which is not monotonically
non-decreasing (the engine's initialization report of percent 4 is relayed as
`min(4*0.8, 80) = 3.2` after the initial 5% report). -/
theorem c1_counterexample :
    (processModel pptxFamily ⟨[⟨"deck.pptx", 1000, ""⟩]⟩ c1Env).output.isSuccess
        = true ∧
    traceMonotone
        (processModel pptxFamily ⟨[⟨"deck.pptx", 1000, ""⟩]⟩ c1Env).trace
      = false := by
  with_unfolding_all decide

/-- Claim C1 (amended): across one successful `process` call, provided the
engine's initialization reports are non-decreasing and every reported percent
is at least 6.25 (so every relayed value `min(percent*0.8, 80)` is at least
the already-reported 5), the sequence of progress values delivered to the
callback is monotonically non-decreasing, and the final reported value is
exactly 100. -/
theorem c1_progress_monotone_amended (fam : Family) (input : ProcessInput)
    (env : ProcEnv)
    (hsucc : (processModel fam input env).output.isSuccess = true)
    (hmono : traceMonotone env.initReports = true)
    (hlo : ∀ pm ∈ env.initReports, (25 : ℚ) / 4 ≤ pm.1) :
    traceMonotone (processModel fam input env).trace = true ∧
    lastVal 0 (processModel fam input env).trace = 100 := by
  obtain ⟨file, blob, -, -, -, -, -, -, -, htrace⟩ :=
    processModel_success_inv fam input env hsucc
  rw [htrace]
  refine ⟨?_, lastVal_append_single _ _ _⟩
  rw [List.cons_append]
  show chainLe 5 _ = true
  simp only [List.append_eq]
  rw [chainLe_append, chainLe_append, lastVal_append]
  have h1 : chainLe 5 (relayMap env.initReports) = true :=
    chainLe_relayMap _ hmono hlo
  have h2 : lastVal 5 (relayMap env.initReports) ≤ 80 :=
    lastVal_le _ _ _ (by norm_num) (relayMap_values_le _)
  have h3 := runTicks_chain fam.convertingMsg env.tickerTicks 0 (by norm_num)
  rw [show ((85 : ℚ) + (0 : Nat)) = 85 by norm_num] at h3
  simp only [chainLe, lastVal, Bool.and_eq_true, decide_eq_true_eq]
  exact ⟨⟨h1, le_trans h2 (by norm_num), h3.1⟩,
    le_trans h3.2 (by norm_num), trivial⟩

/-- Witness for `c1_progress_monotone_amended` at a concrete successful run
(engine reports 10% then 50% during initialization, three ticker ticks). -/
def c1WitnessEnv : ProcEnv :=
  { initReports := [(10, "loading wasm"), (50, "starting engine")]
    initResult := .ok ()
    cancelledAt1 := false
    cancelledAt2 := false
    convertResult := .ok 3
    tickerTicks := 3 }

theorem c1_witness :
    traceMonotone
        (processModel pptxFamily ⟨[⟨"deck.pptx", 1000, ""⟩]⟩ c1WitnessEnv).trace
      = true ∧
    lastVal 0
        (processModel pptxFamily ⟨[⟨"deck.pptx", 1000, ""⟩]⟩ c1WitnessEnv).trace
      = 100 :=
  c1_progress_monotone_amended pptxFamily ⟨[⟨"deck.pptx", 1000, ""⟩]⟩ c1WitnessEnv
    (by with_unfolding_all decide)
    (by with_unfolding_all decide)
    (by with_unfolding_all decide)

/-! ### Claim C3 -/

/-- Claim C3 fails as stated: a single oversize file (52,428,801 bytes, one
over the limit) whose extension is not whitelisted produces
`FILE_TYPE_INVALID`, not `INVALID_OPTIONS` — the extension check is decided
before the size check. -/
theorem c3_counterexample :
    (processModel pptxFamily ⟨[⟨"big.txt", 52428801, "text/plain"⟩]⟩
        c1Env).output.errorCode = some .FILE_TYPE_INVALID ∧
    some PDFErrorCode.FILE_TYPE_INVALID ≠ some PDFErrorCode.INVALID_OPTIONS := by
  with_unfolding_all decide

/-- Claim C3 (amended): for every single-file input whose extension is in the
family whitelist and whose size exceeds 52,428,800 bytes, `process` returns
`INVALID_OPTIONS`, and the message contains both the file's size in MB
(rounded to one decimal, as `toFixed(1)` renders it) and the 50 MB limit. -/
theorem c3_size_limit_amended (fam : Family) (file : FileRec) (env : ProcEnv)
    (hext : extOf file.name ∈ fam.validExts)
    (hsize : file.size > MAX_FILE_SIZE) :
    (processModel fam ⟨[file]⟩ env).output =
      .failure .INVALID_OPTIONS (oversizeMsg file.size)
        (some (oversizeDetail file.size)) ∧
    strContains (oversizeMsg file.size) (sizeMBString file.size ++ " MB") ∧
    strContains (oversizeMsg file.size) "50 MB" := by
  refine ⟨by simp [processModel, hext, hsize], ?_, ?_⟩
  · refine ⟨"File is too large (",
      "). Maximum supported size is " ++
        (toString (MAX_FILE_SIZE / 1024 / 1024) ++ " MB."), ?_⟩
    rw [oversizeMsg, strAppend_assoc]
    have hm : (" MB" : String) ++
        ("). Maximum supported size is " ++
          (toString (MAX_FILE_SIZE / 1024 / 1024) ++ " MB.")) =
        " MB). Maximum supported size is " ++
          (toString (MAX_FILE_SIZE / 1024 / 1024) ++ " MB.") := by
      rw [← strAppend_assoc]
      have hlit : (" MB" : String) ++ "). Maximum supported size is " =
          " MB). Maximum supported size is " := by decide
      rw [hlit]
    rw [hm]
  · have h50 : toString (MAX_FILE_SIZE / 1024 / 1024) = "50" := by
      with_unfolding_all decide
    refine ⟨"File is too large (" ++
      (sizeMBString file.size ++ " MB). Maximum supported size is "), ".", ?_⟩
    rw [oversizeMsg, h50, strAppend_assoc, strAppend_assoc]
    have hlit : ("50" : String) ++ " MB." = "50 MB" ++ "." := by decide
    rw [hlit]

/-- Witness for `c3_size_limit_amended`: a 60,000,000-byte `.pptx` file. -/
theorem c3_witness :
    (processModel pptxFamily ⟨[⟨"big.pptx", 60000000, ""⟩]⟩ c1Env).output =
      .failure .INVALID_OPTIONS (oversizeMsg 60000000)
        (some (oversizeDetail 60000000)) ∧
    strContains (oversizeMsg 60000000) (sizeMBString 60000000 ++ " MB") ∧
    strContains (oversizeMsg 60000000) "50 MB" :=
  c3_size_limit_amended pptxFamily ⟨"big.pptx", 60000000, ""⟩ c1Env
    (by with_unfolding_all decide) (by decide)

/-! ### Claim C4 -/

/-- Claim C4: for every single-file input whose extension is outside the
family whitelist (`pptx`/`ppt`/`odp` for the presentation processor,
`docx`/`doc`/`odt`/`rtf` for the document processor), `process` returns
`FILE_TYPE_INVALID` — with no hypothesis on the file's size, since the
extension check is decided before the size check. -/
theorem c4_bad_extension_rejected (file : FileRec) (env : ProcEnv) :
    (extOf file.name ∉ pptxFamily.validExts →
      (processModel pptxFamily ⟨[file]⟩ env).output =
        .failure .FILE_TYPE_INVALID pptxFamily.badTypeMsg
          (some ("Received: " ++
            (if file.type = "" then file.name else file.type)))) ∧
    (extOf file.name ∉ wordFamily.validExts →
      (processModel wordFamily ⟨[file]⟩ env).output =
        .failure .FILE_TYPE_INVALID wordFamily.badTypeMsg
          (some ("Received: " ++
            (if file.type = "" then file.name else file.type)))) := by
  constructor <;> intro hext <;> simp [processModel, hext]

/-- Witness for `c4_bad_extension_rejected`: a `.txt` file that is also far
over the size limit still yields `FILE_TYPE_INVALID` for both processors. -/
theorem c4_witness :
    (processModel pptxFamily ⟨[⟨"notes.txt", 999999999, ""⟩]⟩ c1Env).output =
      .failure .FILE_TYPE_INVALID pptxFamily.badTypeMsg
        (some ("Received: " ++
          (if ("" : String) = "" then "notes.txt" else ""))) ∧
    (processModel wordFamily ⟨[⟨"notes.txt", 999999999, ""⟩]⟩ c1Env).output =
      .failure .FILE_TYPE_INVALID wordFamily.badTypeMsg
        (some ("Received: " ++
          (if ("" : String) = "" then "notes.txt" else ""))) :=
  ⟨(c4_bad_extension_rejected ⟨"notes.txt", 999999999, ""⟩ c1Env).1
      (by with_unfolding_all decide),
   (c4_bad_extension_rejected ⟨"notes.txt", 999999999, ""⟩ c1Env).2
      (by with_unfolding_all decide)⟩

/-! ### Claim C7 -/

/-- A successful environment whose single engine initialization report
carries percent 0. -/
def c7Env : ProcEnv :=
  { initReports := [(0, "Booting engine")]
    initResult := .ok ()
    cancelledAt1 := false
    cancelledAt2 := false
    convertResult := .ok 7
    tickerTicks := 0 }

/-- Claim C7 fails as stated: an engine initialization report of percent 0 is
relayed as `min(0*0.8, 80) = 0`, which is delivered to the caller but lies
below the claimed 5–80% band. -/
theorem c7_counterexample :
    (relay 0, "Booting engine") ∈
      (processModel pptxFamily ⟨[⟨"deck.pptx", 1000, ""⟩]⟩ c7Env).trace ∧
    relay 0 < 5 := by
  with_unfolding_all decide

/-- Claim C7 (amended): during engine initialization every engine progress
report of percent `p` is relayed to the caller as exactly `min(p*0.8, 80)`;
every relayed value is ≤ 80, and it is ≥ 5 (i.e. within the 5–80 band)
whenever the engine's reported percent is at least 6.25. -/
theorem c7_relay_amended (fam : Family) (file : FileRec) (env : ProcEnv)
    (pm : ℚ × String) (hmem : pm ∈ env.initReports)
    (hext : extOf file.name ∈ fam.validExts)
    (hsize : file.size ≤ MAX_FILE_SIZE) :
    (relay pm.1, pm.2) ∈ (processModel fam ⟨[file]⟩ env).trace ∧
    relay pm.1 = min (pm.1 * (4 / 5)) 80 ∧
    relay pm.1 ≤ 80 ∧
    ((25 : ℚ) / 4 ≤ pm.1 → 5 ≤ relay pm.1) := by
  have hsize' : ¬ file.size > MAX_FILE_SIZE := by omega
  refine ⟨?_, rfl, relay_le_80 pm.1, fun h => five_le_relay h⟩
  have hm : (relay pm.1, pm.2) ∈ relayMap env.initReports := by
    simpa [relayMap] using
      List.mem_map_of_mem (fun q : ℚ × String => (relay q.1, q.2)) hmem
  rcases hinit : env.initResult with msg | u
  · simp [processModel, hext, hsize', hinit, hm]
  · rcases hc1 : env.cancelledAt1
    · rcases hcv : env.convertResult with blob | msg | _
      · rcases hc2 : env.cancelledAt2 <;>
          simp [processModel, hext, hsize', hinit, hc1, hcv, hc2, hm]
      · simp [processModel, hext, hsize', hinit, hc1, hcv, hm]
      · simp [processModel, hext, hsize', hinit, hc1, hcv, hm]
    · simp [processModel, hext, hsize', hinit, hc1, hm]

/-- Witness for `c7_relay_amended`: the engine's 50% report during
initialization of a run on a valid file. -/
theorem c7_witness :
    ((relay 50, "starting engine") ∈
      (processModel pptxFamily ⟨[⟨"deck.pptx", 1000, ""⟩]⟩ c1WitnessEnv).trace) ∧
    relay 50 = min ((50 : ℚ) * (4 / 5)) 80 ∧
    relay 50 ≤ 80 ∧
    ((25 : ℚ) / 4 ≤ 50 → 5 ≤ relay 50) :=
  c7_relay_amended pptxFamily ⟨"deck.pptx", 1000, ""⟩ c1WitnessEnv
    (50, "starting engine") (by decide) (by with_unfolding_all decide)
    (by decide)

/-! ### Claim C5 -/

/-- Claim C5: when the 300,000 ms timer wins the race against `convertToPdf`
(the race is built only around the conversion call, after `getConverter` has
already resolved, so initialization time is excluded), `process` returns
`PROCESSING_FAILED` whose diagnostic message states the 5-minute timeout and
hints that the file may be too complex, and the synthetic progress ticker is
stopped, so no further progress callbacks fire after the failure. -/
theorem c5_timeout (fam : Family) (file : FileRec) (env : ProcEnv)
    (hext : extOf file.name ∈ fam.validExts)
    (hsize : file.size ≤ MAX_FILE_SIZE)
    (hinit : env.initResult = .ok ())
    (hc1 : env.cancelledAt1 = false)
    (hconv : env.convertResult = .timeout) :
    (processModel fam ⟨[file]⟩ env).output =
      .failure .PROCESSING_FAILED fam.failedMsg (some timeoutMessage) ∧
    (processModel fam ⟨[file]⟩ env).timerAfter = false ∧
    strContains timeoutMessage "timed out after 5 minutes" ∧
    strContains timeoutMessage "too complex" := by
  have hsize' : ¬ file.size > MAX_FILE_SIZE := by omega
  have h5 : toString (CONVERT_TIMEOUT_MS / 60000) = "5" := by
    with_unfolding_all decide
  refine ⟨?_, ?_, ?_, ?_⟩
  · simp [processModel, hext, hsize', hinit, hc1, hconv]
  · simp [processModel, hext, hsize', hinit, hc1, hconv]
  · refine ⟨"Conversion ", ". The file may be too complex.", ?_⟩
    rw [timeoutMessage, h5]
    decide
  · refine ⟨"Conversion timed out after " ++
      (toString (CONVERT_TIMEOUT_MS / 60000) ++ " minutes. The file may be "),
      ".", ?_⟩
    rw [timeoutMessage, h5]
    decide

/-- A timeout environment: the timer wins the race after 13 ticker ticks. -/
def c5Env : ProcEnv :=
  { initReports := [(100, "engine ready")]
    initResult := .ok ()
    cancelledAt1 := false
    cancelledAt2 := false
    convertResult := .timeout
    tickerTicks := 13 }

theorem c5_witness :
    (processModel pptxFamily ⟨[⟨"deck.pptx", 1000, ""⟩]⟩ c5Env).output =
      .failure .PROCESSING_FAILED pptxFamily.failedMsg (some timeoutMessage) ∧
    (processModel pptxFamily ⟨[⟨"deck.pptx", 1000, ""⟩]⟩ c5Env).timerAfter
      = false ∧
    strContains timeoutMessage "timed out after 5 minutes" ∧
    strContains timeoutMessage "too complex" :=
  c5_timeout pptxFamily ⟨"deck.pptx", 1000, ""⟩ c5Env
    (by with_unfolding_all decide) (by decide) rfl rfl rfl

/-! ### Claim C6 -/

/-- Claim C6: if the cancellation flag is set when sampled at the checkpoint
before conversion, `process` returns `PROCESSING_CANCELLED` and `convertToPdf`
is never invoked; if it is clear there but set when re-sampled after the race
settles, `process` returns `PROCESSING_CANCELLED` even though the conversion
completed with a blob — the completed output is discarded. -/
theorem c6_cancellation (fam : Family) (file : FileRec) (env : ProcEnv)
    (hext : extOf file.name ∈ fam.validExts)
    (hsize : file.size ≤ MAX_FILE_SIZE)
    (hinit : env.initResult = .ok ()) :
    (env.cancelledAt1 = true →
      (processModel fam ⟨[file]⟩ env).output =
        .failure .PROCESSING_CANCELLED "Processing was cancelled." none ∧
      (processModel fam ⟨[file]⟩ env).convertInvoked = false) ∧
    (∀ blob : Nat, env.cancelledAt1 = false →
      env.convertResult = .ok blob → env.cancelledAt2 = true →
      (processModel fam ⟨[file]⟩ env).output =
        .failure .PROCESSING_CANCELLED "Processing was cancelled." none) := by
  have hsize' : ¬ file.size > MAX_FILE_SIZE := by omega
  constructor
  · intro hc1
    constructor <;> simp [processModel, hext, hsize', hinit, hc1]
  · intro blob hc1 hcv hc2
    simp [processModel, hext, hsize', hinit, hc1, hcv, hc2]

/-- Environment cancelled at the first checkpoint. -/
def c6EnvA : ProcEnv :=
  { initReports := []
    initResult := .ok ()
    cancelledAt1 := true
    cancelledAt2 := false
    convertResult := .ok 5
    tickerTicks := 0 }

/-- Environment cancelled only at the second checkpoint, with a completed
conversion blob. -/
def c6EnvB : ProcEnv :=
  { initReports := []
    initResult := .ok ()
    cancelledAt1 := false
    cancelledAt2 := true
    convertResult := .ok 5
    tickerTicks := 2 }

theorem c6_witness :
    ((processModel pptxFamily ⟨[⟨"deck.pptx", 1000, ""⟩]⟩ c6EnvA).output =
        .failure .PROCESSING_CANCELLED "Processing was cancelled." none ∧
      (processModel pptxFamily ⟨[⟨"deck.pptx", 1000, ""⟩]⟩ c6EnvA).convertInvoked
        = false) ∧
    (processModel pptxFamily ⟨[⟨"deck.pptx", 1000, ""⟩]⟩ c6EnvB).output =
      .failure .PROCESSING_CANCELLED "Processing was cancelled." none :=
  ⟨(c6_cancellation pptxFamily ⟨"deck.pptx", 1000, ""⟩ c6EnvA
      (by with_unfolding_all decide) (by decide) rfl).1 rfl,
   (c6_cancellation pptxFamily ⟨"deck.pptx", 1000, ""⟩ c6EnvB
      (by with_unfolding_all decide) (by decide) rfl).2 5 rfl rfl rfl⟩

/-! ### Claim C8 -/

/-- A plain successful environment with no initialization reports (converter
already ready) and one ticker tick. -/
def c10Env : ProcEnv :=
  { initReports := []
    initResult := .ok ()
    cancelledAt1 := false
    cancelledAt2 := false
    convertResult := .ok 9
    tickerTicks := 1 }

/-- Claim C8: on success the output filename is the input name with its known
source extension stripped case-insensitively and `.pdf` appended, and the
success metadata is exactly `{format: 'pdf'}`; concretely, `Report.DOCX`
yields `Report.pdf` (document processor) and `slides.v2.pptx` yields
`slides.v2.pdf` (presentation processor). -/
theorem c8_filename (fam : Family) (input : ProcessInput) (env : ProcEnv)
    (hsucc : (processModel fam input env).output.isSuccess = true) :
    (∃ file blob, input.files = [file] ∧
      (processModel fam input env).output =
        .success blob (stripSrcExt fam.stripSuffixes file.name ++ ".pdf")
          [("format", "pdf")]) ∧
    stripSrcExt wordFamily.stripSuffixes "Report.DOCX" ++ ".pdf"
      = "Report.pdf" ∧
    stripSrcExt pptxFamily.stripSuffixes "slides.v2.pptx" ++ ".pdf"
      = "slides.v2.pdf" := by
  obtain ⟨file, blob, hfiles, -, -, -, -, -, hout, -⟩ :=
    processModel_success_inv fam input env hsucc
  exact ⟨⟨file, blob, hfiles, hout⟩, by decide, by decide⟩

theorem c8_witness :
    (∃ file blob,
      (⟨[⟨"Report.DOCX", 1000, ""⟩]⟩ : ProcessInput).files = [file] ∧
      (processModel wordFamily ⟨[⟨"Report.DOCX", 1000, ""⟩]⟩ c10Env).output =
        .success blob (stripSrcExt wordFamily.stripSuffixes file.name ++ ".pdf")
          [("format", "pdf")]) ∧
    stripSrcExt wordFamily.stripSuffixes "Report.DOCX" ++ ".pdf"
      = "Report.pdf" ∧
    stripSrcExt pptxFamily.stripSuffixes "slides.v2.pptx" ++ ".pdf"
      = "slides.v2.pdf" :=
  c8_filename wordFamily ⟨[⟨"Report.DOCX", 1000, ""⟩]⟩ c10Env
    (by with_unfolding_all decide)

/-! ### Claim C10 -/

/-- Claim C10: a file whose entire name is `pptx` (no dot) passes the type
check — the extension is the lowercased segment after the last dot, which for
a dotless name is the whole name — and, because the stripping regex requires
a literal dot, the derived output filename is the whole original name with
`.pdf` appended: `pptx.pdf`. -/
theorem c10_no_dot_name :
    extOf "pptx" = "pptx" ∧
    extOf "pptx" ∈ pptxFamily.validExts ∧
    stripSrcExt pptxFamily.stripSuffixes "pptx" = "pptx" ∧
    (processModel pptxFamily
        ⟨[⟨"pptx", 1234, "application/octet-stream"⟩]⟩ c10Env).output =
      .success 9 "pptx.pdf" [("format", "pdf")] := by
  with_unfolding_all decide

/-! ### Claim C2 -/

/-- First `getConverter` call on fresh module globals, with the engine
initialization rejecting. -/
def failedInitCall : GetConvResult :=
  getConverterModel ⟨none, none⟩ 1 (.fail "engine init failed")

/-- The subsequent `getConverter` call, made after the failed initialization;
a fresh initialization would now succeed (`InitOutcome.ok`), but none is
started. -/
def retryCall : GetConvResult :=
  getConverterModel failedInitCall.globals 2 .ok

/-- Claim C2: the failure does propagate to the awaiter of the first call,
but `getConverter` never clears `converterPromise` on failure, so the retry
call finds the stale rejected promise, starts no fresh initialization (even
though one would now succeed), and fails again with the original error: the
provider is permanently wedged, contradicting the claim that the in-flight
marker is cleared or left in a retryable state. -/
theorem c2_init_failure_wedges :
    failedInitCall.result = .error "engine init failed" ∧
    failedInitCall.globals.converterPromise =
      some (.rejected "engine init failed") ∧
    retryCall.startedInit = false ∧
    retryCall.result = .error "engine init failed" ∧
    retryCall.globals = failedInitCall.globals :=
  ⟨rfl, rfl, rfl, rfl, rfl⟩

/-! ### Claim C9 -/

/-- Claim C9: the converter handle is a process-wide singleton. (1) When a
ready handle exists, `getConverter` returns it immediately with unchanged
globals and no initialization started. (2) When an initialization is in
flight (a promise is stored and no ready instance exists), every caller
awaits that same stored promise — sharing its settlement, resolution or
rejection — with unchanged globals and no second initialization. (3) A fresh
successful initialization stores a ready handle, and every subsequent call
returns that same handle with no side effects. -/
theorem c9_singleton :
    (∀ (g : ConverterGlobals) (h : Handle), g.converterInstance = some h →
      h.ready = true → ∀ (i : Nat) (init : InitOutcome),
      getConverterModel g i init = ⟨.ok (some h), g, false⟩) ∧
    (∀ (g : ConverterGlobals) (p : PromiseState),
      (∀ h : Handle, g.converterInstance = some h → h.ready = false) →
      g.converterPromise = some p → ∀ (i : Nat) (init : InitOutcome),
      getConverterModel g i init =
        ⟨(match p with
          | .resolved => Except.ok g.converterInstance
          | .rejected m => Except.error m), g, false⟩) ∧
    (∀ i : Nat, getConverterModel ⟨none, none⟩ i .ok =
        ⟨.ok (some ⟨i, true⟩), ⟨some .resolved, some ⟨i, true⟩⟩, true⟩ ∧
      ∀ (i2 : Nat) (init2 : InitOutcome),
        getConverterModel ⟨some .resolved, some ⟨i, true⟩⟩ i2 init2 =
          ⟨.ok (some ⟨i, true⟩), ⟨some .resolved, some ⟨i, true⟩⟩, false⟩) := by
  refine ⟨?_, ?_, ?_⟩
  · intro g h hinst hready i init
    simp [getConverterModel, hinst, hready]
  · intro g p hnotready hprom i init
    rcases g with ⟨gp, gi⟩
    cases hprom
    rcases gi with _ | h
    · cases p <;> rfl
    · have := hnotready h rfl
      cases p <;> simp [getConverterModel, this]
  · intro i
    exact ⟨rfl, fun i2 init2 => rfl⟩

/-- Witness for `c9_singleton`: a ready handle is returned untouched; a
stored rejected promise is re-awaited with no new initialization; a fresh
initialization stores a ready singleton. -/
theorem c9_witness :
    getConverterModel ⟨none, some ⟨3, true⟩⟩ 7 .ok =
      ⟨.ok (some ⟨3, true⟩), ⟨none, some ⟨3, true⟩⟩, false⟩ ∧
    getConverterModel ⟨some (.rejected "boom"), some ⟨4, false⟩⟩ 8 .ok =
      ⟨.error "boom", ⟨some (.rejected "boom"), some ⟨4, false⟩⟩, false⟩ ∧
    getConverterModel ⟨none, none⟩ 5 .ok =
      ⟨.ok (some ⟨5, true⟩), ⟨some .resolved, some ⟨5, true⟩⟩, true⟩ :=
  ⟨c9_singleton.1 ⟨none, some ⟨3, true⟩⟩ ⟨3, true⟩ rfl rfl 7 .ok,
   c9_singleton.2.1 ⟨some (.rejected "boom"), some ⟨4, false⟩⟩ (.rejected "boom")
     (fun h hh => by cases hh; rfl) rfl 8 .ok,
   (c9_singleton.2.2 5).1⟩

end PDFCraft
